import Mathlib

/-!
# QuMail — formal verification of the specified security core

Shallow embedding of the QuMail repository's code, together with
spec-modelled definitions for the backend components (key-pool authority,
encryption engine, policy engine) whose Python sources are not part of the
checked tree: only their documentation, REST contract and frontend callers
are.  Frontend TypeScript code present in the tree is embedded directly.
-/

namespace QuMail

/-! ## Frontend: security status and level availability

Embedded from `frontend/src/types/api.ts` (`SecurityStatus`) and
`SecurityLevelSelector.tsx` (`isLevelAvailable`). -/

/-- The `available_key_material` object of `SecurityStatus` in `types/api.ts`. -/
structure KeyMaterialStatus where
  otp_bytes : Nat
  aes_keys : Nat
  pqc_keys : Nat
deriving DecidableEq

/-- The `SecurityStatus` interface from `types/api.ts` (fields the selector reads). -/
structure SecurityStatus where
  km_connected : Bool
  available_key_material : KeyMaterialStatus
deriving DecidableEq

/-- Function `isLevelAvailable` from `SecurityLevelSelector.tsx`: level 4 is always
available; otherwise requires a connected key manager, and level 1 needs at
least 1000 OTP bytes, level 2 at least one AES key.  `status` is `none` when
the hook has not loaded a status yet (`status?.` in the source). -/
def isLevelAvailable (status : Option SecurityStatus) (level : Nat) : Bool :=
  if level = 4 then true
  else
    match status with
    | none => false
    | some st =>
      if !st.km_connected then false
      else if level = 1 && st.available_key_material.otp_bytes < 1000 then false
      else if level = 2 && st.available_key_material.aes_keys < 1 then false
      else true

/-! ## Frontend: API client response handling

Embedded from `frontend/src/api/client.ts` (`request`, lines 13–64, and the
`authToken` module state with `setAuthToken`). -/

/-- The parts of a `fetch` response that `request` inspects: `ok`, `status`,
the `detail` field of the parsed error body (`none` when the body is not
JSON or has no `detail`, matching `.catch(() => ({}))`), and the success
body. -/
structure HttpResponse where
  ok : Bool
  status : Nat
  errorDetail : Option String
  body : String
deriving DecidableEq

/-- The statement `if (authToken) defaults['Authorization'] = ...` in `client.ts`:
the Authorization header is attached only for a truthy (non-null, non-empty)
token. -/
def authHeaderFor (token : Option String) : Option String :=
  match token with
  | none => none
  | some t => if t = "" then none else some ("Bearer " ++ t)

/-- Response handling of `request` in `client.ts`: on a non-OK response,
status 401 clears the module-level token and dispatches the
`qumail:unauthorized` window event, then an `Error` is thrown with the
parsed `detail` or a fallback message; on an OK response the parsed body is
returned.  Result: (new token state, dispatched events, thrown error or
returned body). -/
def handleResponse (token : Option String) (r : HttpResponse) :
    Option String × List String × Except String String :=
  if r.ok then (token, [], .ok r.body)
  else
    let token2 := if r.status = 401 then none else token
    let events := if r.status = 401 then ["qumail:unauthorized"] else []
    (token2, events, .error (r.errorDetail.getD ("Request failed: " ++ toString r.status)))

/-! ## Frontend: compose form send guard

Embedded from `frontend/src/components/Email/ComposeEmail.tsx`
(`handleSend`, lines 19–58) and `types/api.ts` (`SendEmailResponse`). -/

/-- The `SendEmailResponse` interface from `types/api.ts`. -/
structure SendEmailResponse where
  success : Bool
  message_id : Option String
  key_id : Option String
  security_level_used : Nat
  error : Option String
deriving DecidableEq

/-- Everything `handleSend` does that is visible to the user. -/
inductive ComposeOutcome
  /-- validation failed: an error message is set and `handleSend` returns
  before `sendEmail` is called -/
  | blocked (msg : String)
  /-- success path: `result.success` was true, so `navigate('/sent')`, nothing else shown -/
  | navigateSent
  /-- failure path: `result.success` false or `sendEmail` threw, error message shown -/
  | showError (msg : String)
deriving DecidableEq

/-- ASCII whitespace, as removed by JavaScript's `String.prototype.trim`. -/
def isWhitespaceChar (c : Char) : Bool := c = ' ' ∨ c = '\t' ∨ c = '\n' ∨ c = '\r'

/-- The test `!s.trim()` in the guards of `handleSend`: the trimmed string is empty
exactly when every character is whitespace. -/
def isBlank (s : String) : Bool := s.data.all isWhitespaceChar

/-- The three guard clauses at the top of `handleSend`, in source order:
blank recipient, blank subject, blank body each set a validation message and
return early. -/
def composeValidationError (toField subject body : String) : Option String :=
  if isBlank toField then some "Please enter at least one recipient"
  else if isBlank subject then some "Please enter a subject"
  else if isBlank body then some "Please enter a message"
  else none

/-- Function `handleSend` from `ComposeEmail.tsx` as a function of the form fields,
the selected security level, and the result of the `sendEmail` call
(`.error` models a thrown exception).  When validation fails the outcome
does not depend on `sendResult` — no request is issued.  On
`result.success` the code navigates to `/sent` without looking at
`security_level_used`. -/
def handleSend (toField subject body : String) (securityLevel : Nat)
    (sendResult : Except String SendEmailResponse) : ComposeOutcome :=
  match composeValidationError toField subject body with
  | some msg => .blocked msg
  | none =>
    match sendResult with
    | .error e => .showError e
    | .ok r =>
      if r.success then .navigateSent
      else .showError (r.error.getD "Failed to send email")

/-- Whether an outcome shows the user any message (validation error or send
error).  `navigateSent` shows nothing: the success path of `handleSend`
only navigates. -/
def outcomeSignalsUser : ComposeOutcome → Bool
  | .blocked _ => true
  | .navigateSent => false
  | .showError _ => true

/-! ## Policy Engine (spec-modelled)

The backend `policy_engine/` package is not part of the checked tree. -/

/-- Modelled from the spec: input of `PE.evaluate(requested_level,
recipient_capability, payload_size)` together with the KPA status the rules
consult (`available_bytes` of OTP material for the recipient, and the AES
key count). -/
structure PeInput where
  requested : Nat
  supported : List Nat
  payloadSize : Nat
  availableBytes : Nat
  aesKeys : Nat
deriving DecidableEq

/-- Modelled from the spec: result `{approved_level, reason}` of
`PE.evaluate`; `reason` is `none` when no fallback was applied. -/
structure PeResult where
  approved : Nat
  reason : Option String
deriving DecidableEq

/-- Highest level in a capability list (used by fallback rule 2); `4` when
the recipient supports none. -/
def highestSupported (levels : List Nat) : Nat :=
  match levels with
  | [] => 4
  | l :: t => t.foldr Nat.max l

/-- Modelled from the spec: `PE.evaluate`, rules applied in order —
1. requested level 4 is approved unconditionally;
2. a level the recipient does not support downgrades to the highest level
   the recipient supports, or 4 if none;
3. a level-1 request with `available_bytes < payload_size` falls back to 2
   if AES key material exists, else to 4, recording the reason;
4. a level-2/3 request with zero AES keys falls back to 4.
Every fallback carries a non-`none` reason code. -/
def evaluate (inp : PeInput) : PeResult :=
  if inp.requested = 4 then ⟨4, none⟩
  else if inp.requested ∉ inp.supported then
    ⟨highestSupported inp.supported, some "recipient capability mismatch"⟩
  else if inp.requested = 1 ∧ inp.availableBytes < inp.payloadSize then
    if 0 < inp.aesKeys then ⟨2, some "insufficient OTP key material"⟩
    else ⟨4, some "insufficient OTP key material and no AES keys"⟩
  else if (inp.requested = 2 ∨ inp.requested = 3) ∧ inp.aesKeys = 0 then
    ⟨4, some "no AES key material"⟩
  else ⟨inp.requested, none⟩

/-! ## Key Pool Authority (spec-modelled)

The `key_manager/core/key_pool.py` source is not part of the checked tree;
the model below follows the spec's §3 data model and §4.1 contract. -/

/-- Modelled from the spec: the `state` field of a KPA-side `KeyRecord`. -/
inductive KeyState
  | provisioned
  | reserved
  | consumed
  | released
deriving DecidableEq

/-- Modelled from the spec: a KPA-side `KeyRecord` holding the authoritative
lifecycle state and (until zeroization) the raw material.  `material = none`
models the zeroized server-held copy. -/
structure KeyRecord where
  state : KeyState
  material : Option (List Nat)
  peer : Nat
  size : Nat
deriving DecidableEq

/-- Modelled from the spec: the KPA's owned key inventory.  `records` maps
`key_id`s to records, `nextId` is the next fresh `key_id`, `entropy` seeds
the CSPRNG stand-in, `ceiling` is the configured per-peer pool ceiling in
bytes. -/
structure KpaState where
  records : List (Nat × KeyRecord)
  nextId : Nat
  entropy : Nat
  ceiling : Nat
deriving DecidableEq

/-- Modelled from the spec: the KPA error taxonomy relevant to key
operations (§7). -/
inductive KpaError
  | exhausted
  | notFound
  | gone
  | alreadyConsumed
deriving DecidableEq

/-- Look a record up by `key_id` (first match). -/
def findRec : List (Nat × KeyRecord) → Nat → Option KeyRecord
  | [], _ => none
  | (i, r) :: t, k => if i = k then some r else findRec t k

/-- Replace the first record stored under `k`. -/
def updateRec : List (Nat × KeyRecord) → Nat → KeyRecord → List (Nat × KeyRecord)
  | [], _, _ => []
  | (i, r) :: t, k, nr => if i = k then (i, nr) :: t else (i, r) :: updateRec t k nr

/-- A simple byte-mixing function; stands in for the CSPRNG and the keyed
primitives of the crypto engine (the spec replaces quantum key generation
by a cryptographically-secure pseudorandom source). -/
def mix (a b : Nat) : Nat := (a * 131 + b * 31 + 7) % 256

/-- Modelled from the spec: generation of `n` bytes of key material from the
pool's entropy counter. -/
def genBytes (seed n : Nat) : List Nat := (List.range n).map (fun i => mix seed i)

/-- Bytes currently allocated to a peer, counted against the per-peer
ceiling. -/
def allocatedBytes (s : KpaState) (peer : Nat) : Nat :=
  s.records.foldr (fun p acc => if p.2.peer = peer then p.2.size + acc else acc) 0

/-- Modelled from the spec: `KPA.request(peer_id, size_bytes, purpose)` —
generates `size_bytes` of random material, creates a record that is
immediately `Reserved`, and returns `(new state, key_id, material)`; fails
with `Exhausted`, allocating nothing, when the per-peer ceiling would be
exceeded. -/
def requestKey (s : KpaState) (peer size : Nat) :
    Except KpaError (KpaState × Nat × List Nat) :=
  if s.ceiling < allocatedBytes s peer + size then .error .exhausted
  else
    let material := genBytes s.entropy size
    let nr : KeyRecord := { state := .reserved, material := some material,
                            peer := peer, size := size }
    .ok ({ s with records := (s.nextId, nr) :: s.records,
                  nextId := s.nextId + 1, entropy := s.entropy + 1 },
         s.nextId, material)

/-- Modelled from the spec: `KPA.retrieve(key_id)` — returns the material of
a key that is not consumed; fails `Gone` once the key is `Consumed`,
`NotFound` when no such key exists. -/
def retrieveKey (s : KpaState) (k : Nat) : Except KpaError (List Nat) :=
  match findRec s.records k with
  | none => .error .notFound
  | some r =>
    if r.state = .consumed then .error .gone
    else .ok (r.material.getD [])

/-- Modelled from the spec: `KPA.consume(key_id)` — transitions
`Reserved → Consumed` irreversibly and zeroizes the server-held copy
(`material := none`); a second call fails with `AlreadyConsumed`. -/
def consumeKey (s : KpaState) (k : Nat) : Except KpaError KpaState :=
  match findRec s.records k with
  | none => .error .notFound
  | some r =>
    if r.state = .reserved then
      .ok { s with records := updateRec s.records k
                     { r with state := .consumed, material := none } }
    else if r.state = .consumed then .error .alreadyConsumed
    else .error .notFound

/-- Modelled from the spec: `KPA.release(key_id)` — transitions
`Reserved → Provisioned` (TTL expiry or cancel); on any other state the
already-transitioned state is observed and left unchanged (§5). -/
def releaseKey (s : KpaState) (k : Nat) : KpaState :=
  match findRec s.records k with
  | some r =>
    if r.state = .reserved then
      { s with records := updateRec s.records k { r with state := .provisioned } }
    else s
  | none => s

/-- Modelled from the spec: `KPA.status(peer_id)` — read-only aggregate of
available (non-consumed) bytes and key count for a peer. -/
def statusOf (s : KpaState) (peer : Nat) : Nat × Nat :=
  s.records.foldr
    (fun p acc =>
      if p.2.peer = peer ∧ p.2.state ≠ KeyState.consumed
      then (p.2.size + acc.1, acc.2 + 1) else acc)
    (0, 0)

/-- One KPA operation, used to quantify over arbitrary later call
sequences. -/
inductive KpaOp
  | req (peer size : Nat)
  | ret (k : Nat)
  | con (k : Nat)
  | rel (k : Nat)
deriving DecidableEq

/-- The state resulting from a `request` outcome (a failed request leaves
the state unchanged). -/
def afterRequest (s : KpaState) : Except KpaError (KpaState × Nat × List Nat) → KpaState
  | .ok x => x.1
  | .error _ => s

/-- The state resulting from a `consume` outcome (a failed consume leaves
the state unchanged). -/
def afterConsume (s : KpaState) : Except KpaError KpaState → KpaState
  | .ok s2 => s2
  | .error _ => s

/-- State reached after one operation (failed operations leave the state
unchanged; `retrieve` and `status` are read-only). -/
def stepOp (s : KpaState) : KpaOp → KpaState
  | .req peer size => afterRequest s (requestKey s peer size)
  | .ret _ => s
  | .con k => afterConsume s (consumeKey s k)
  | .rel k => releaseKey s k

/-- State reached after a sequence of operations. -/
def runOps (s : KpaState) : List KpaOp → KpaState
  | [] => s
  | op :: t => runOps (stepOp s op) t

/-- Well-formedness of the pool: every stored `key_id` is below `nextId`,
so fresh ids never collide with existing records. -/
def KpaWF (s : KpaState) : Prop := ∀ p ∈ s.records, p.1 < s.nextId

instance (s : KpaState) : Decidable (KpaWF s) := by
  unfold KpaWF; infer_instance

/-! ## Encryption Engine (spec-modelled)

The backend `crypto_engine/` package is not part of the checked tree; the
model below follows the spec's §4.3 level table and §3 `SecurityEnvelope`.
The concrete keyed primitives (HKDF-style derivation, HMAC/GCM tag,
AES-CTR-style keystream, Kyber KEM) are stood in for by simple executable
keyed functions realising exactly the algebraic properties the spec states
for them: derivation is domain-separated, encryption is a keyed
length-preserving XOR, the tag is a keyed injective function of the
ciphertext (the spec asserts deterministic tamper detection), and KEM
decapsulation with the matching secret key recovers the encapsulated shared
secret. -/

/-- Error taxonomy of the engine (§7). -/
inductive CryptoError
  | malformedEnvelope
  | integrityFailure
deriving DecidableEq

/-- Modelled from the spec: the `SecurityEnvelope` produced by the engine.
Fields unused by a level are empty. -/
structure Envelope where
  security_level : Nat
  ciphertext : List Nat
  nonce : List Nat
  tag : List Nat
  kem_ct : List Nat
deriving DecidableEq

/-- Byte-wise XOR of two equal-length byte strings. -/
def xorBytes (a b : List Nat) : List Nat := List.zipWith (fun x y => x ^^^ y) a b

/-- Collapse a byte string into a seed for the keyed primitives. -/
def listSeed (l : List Nat) : Nat := l.foldr (fun a b => a + 257 * b + 1) 0

/-- Keystream of `n` bytes derived from key material and a nonce
(stands in for AES-CTR/GCM keystream generation). -/
def keystream (key nonce : List Nat) (n : Nat) : List Nat :=
  (List.range n).map (fun i => mix (listSeed key * 65537 + listSeed nonce) i)

/-- Mask a byte string with a position-dependent pad, starting at
position `i`. -/
def maskWith (pad : Nat → Nat) : List Nat → Nat → List Nat
  | [], _ => []
  | c :: cs, i => (c ^^^ pad i) :: maskWith pad cs (i + 1)

/-- Keyed pad used by the integrity tag. -/
def macPad (key nonce : List Nat) (i : Nat) : Nat :=
  mix (listSeed key * 3 + listSeed nonce * 5 + 11) i

/-- Keyed integrity tag over the ciphertext (stands in for the HMAC/GCM
tag); injective in the ciphertext for a fixed key and nonce, realising the
spec's deterministic tamper detection. -/
def macTag (key nonce ct : List Nat) : List Nat := maskWith (macPad key nonce) ct 0

/-- Domain-separated derivation of the level-1 MAC key from the OTP
material (spec: "a key slice derived from the same material via a
domain-separated derivation, never the raw OTP bytes"). -/
def otpDerive (key : List Nat) : List Nat := key.map (fun b => mix 9 b)

/-- Domain-separated derivation of the MAC key from an AES seed
(HKDF-style expansion keyed by the raw seed). -/
def aesDerive (seed : List Nat) : List Nat := seed.map (fun b => mix 5 b)

/-- Modelled from the spec: level-1 (OTP) encryption.  The
`len(key) == len(plaintext)` invariant is checked first; a mismatch fails
with `MalformedEnvelope` before any XOR is attempted. -/
def otpEncrypt (key pt : List Nat) : Except CryptoError Envelope :=
  if key.length = pt.length then
    let ct := xorBytes pt key
    .ok { security_level := 1, ciphertext := ct, nonce := [],
          tag := macTag (otpDerive key) [] ct, kem_ct := [] }
  else .error .malformedEnvelope

/-- Modelled from the spec: level-1 (OTP) decryption.  Asserts
`len(key) == len(ciphertext)` before attempting the XOR
(`MalformedEnvelope` on mismatch), then verifies the tag before releasing
any plaintext (`IntegrityFailure` on mismatch, no partial output). -/
def otpDecrypt (key : List Nat) (env : Envelope) : Except CryptoError (List Nat) :=
  if key.length = env.ciphertext.length then
    if env.tag = macTag (otpDerive key) [] env.ciphertext then
      .ok (xorBytes env.ciphertext key)
    else .error .integrityFailure
  else .error .malformedEnvelope

/-- Modelled from the spec: level-2 (quantum-aided AES) encryption with a
32-byte seed and a per-message nonce; AEAD modelled as keystream XOR plus
keyed tag. -/
def aesEncrypt (seed nonce pt : List Nat) : Except CryptoError Envelope :=
  if seed.length = 32 then
    let ct := xorBytes pt (keystream seed nonce pt.length)
    .ok { security_level := 2, ciphertext := ct, nonce := nonce,
          tag := macTag (aesDerive seed) nonce ct, kem_ct := [] }
  else .error .malformedEnvelope

/-- Modelled from the spec: level-2 decryption; the tag is verified before
any plaintext is released. -/
def aesDecrypt (seed : List Nat) (env : Envelope) : Except CryptoError (List Nat) :=
  if seed.length = 32 then
    if env.tag = macTag (aesDerive seed) env.nonce env.ciphertext then
      .ok (xorBytes env.ciphertext (keystream seed env.nonce env.ciphertext.length))
    else .error .integrityFailure
  else .error .malformedEnvelope

/-- Modelled from the spec: KEM public key of a secret key. -/
def kemPub (sk : Nat) : Nat := mix 13 sk

/-- Modelled from the spec: KEM encapsulation against a public key with
encapsulation randomness `r`, producing `(kem_ciphertext, shared_secret)`. -/
def kemEncaps (pk r : Nat) : Nat × Nat := (r, mix pk r)

/-- Modelled from the spec: KEM decapsulation recovers the shared secret
from the KEM ciphertext using the secret key. -/
def kemDecaps (sk ct : Nat) : Nat := mix (kemPub sk) ct

/-- Modelled from the spec: HKDF-style combination of the KEM shared secret
and the 32-byte QKD seed into the AES key for level 3. -/
def hkdfCombine (ss : Nat) (seed : List Nat) : List Nat :=
  seed.map (fun b => mix ss b)

/-- Modelled from the spec: level-3 (PQC) encryption — encapsulate against
the recipient's public key, combine the shared secret with the QKD seed,
then AEAD-encrypt as in level 2, carrying the KEM ciphertext in the
envelope. -/
def pqcEncrypt (pk r : Nat) (seed nonce pt : List Nat) : Except CryptoError Envelope :=
  if seed.length = 32 then
    let ek := kemEncaps pk r
    let k := hkdfCombine ek.2 seed
    let ct := xorBytes pt (keystream k nonce pt.length)
    .ok { security_level := 3, ciphertext := ct, nonce := nonce,
          tag := macTag (aesDerive k) nonce ct, kem_ct := [ek.1] }
  else .error .malformedEnvelope

/-- Modelled from the spec: level-3 decryption — decapsulate, re-derive the
AES key, verify the tag before releasing any plaintext. -/
def pqcDecrypt (sk : Nat) (seed : List Nat) (env : Envelope) :
    Except CryptoError (List Nat) :=
  if seed.length = 32 then
    match env.kem_ct with
    | [kct] =>
      let k := hkdfCombine (kemDecaps sk kct) seed
      if env.tag = macTag (aesDerive k) env.nonce env.ciphertext then
        .ok (xorBytes env.ciphertext (keystream k env.nonce env.ciphertext.length))
      else .error .integrityFailure
    | _ => .error .malformedEnvelope
  else .error .malformedEnvelope

/-- Key context handed to the engine for encryption, tagged per level
(§9's tagged-variant design note). -/
inductive KeyContext
  | otp (key : List Nat)
  | aes (seed nonce : List Nat)
  | pqc (pk r : Nat) (seed nonce : List Nat)
  | plain
deriving DecidableEq

/-- Key context for decryption (level 3 uses the recipient's secret key). -/
inductive DecContext
  | otp (key : List Nat)
  | aes (seed : List Nat)
  | pqc (sk : Nat) (seed : List Nat)
  | plain
deriving DecidableEq

/-- Modelled from the spec: the engine's single dispatch over
`security_level` (§4.3).  Level 4 is the identity transform. -/
def encryptEE : Nat → KeyContext → List Nat → Except CryptoError Envelope
  | 1, .otp key, pt => otpEncrypt key pt
  | 2, .aes seed nonce, pt => aesEncrypt seed nonce pt
  | 3, .pqc pk r seed nonce, pt => pqcEncrypt pk r seed nonce pt
  | 4, .plain, pt =>
    .ok { security_level := 4, ciphertext := pt, nonce := [], tag := [], kem_ct := [] }
  | _, _, _ => .error .malformedEnvelope

/-- Modelled from the spec: decryption dispatch, the algebraic inverse per
level with tag verification before any plaintext is released. -/
def decryptEE : Nat → DecContext → Envelope → Except CryptoError (List Nat)
  | 1, .otp key, env => otpDecrypt key env
  | 2, .aes seed, env => aesDecrypt seed env
  | 3, .pqc sk seed, env => pqcDecrypt sk seed env
  | 4, .plain, env => .ok env.ciphertext
  | _, _, _ => .error .malformedEnvelope

/-- An envelope with one bit of byte `i` of the ciphertext flipped. -/
def tamperCt (env : Envelope) (i b : Nat) : Envelope :=
  { env with ciphertext := env.ciphertext.set i ((env.ciphertext.getD i 0) ^^^ 2 ^ b) }

/-- An envelope with one bit of byte `i` of the tag flipped. -/
def tamperTag (env : Envelope) (i b : Nat) : Envelope :=
  { env with tag := env.tag.set i ((env.tag.getD i 0) ^^^ 2 ^ b) }

/-! ## Helper lemmas -/

theorem xorBytes_cancel (pt ks : List Nat) (h : ks.length = pt.length) :
    xorBytes (xorBytes pt ks) ks = pt := by
  unfold xorBytes
  induction pt generalizing ks with
  | nil => cases ks <;> rfl
  | cons p t ih =>
    cases ks with
    | nil => simp at h
    | cons k kt =>
      simp only [List.length_cons, Nat.add_right_cancel_iff] at h
      simp only [List.zipWith, Nat.xor_cancel_right, List.cons.injEq, true_and]
      exact ih kt h

theorem length_xorBytes (a b : List Nat) : (xorBytes a b).length = min a.length b.length := by
  simp [xorBytes]

theorem length_keystream (key nonce : List Nat) (n : Nat) :
    (keystream key nonce n).length = n := by
  simp [keystream]

theorem maskWith_inj (pad : Nat → Nat) :
    ∀ (a b : List Nat) (i : Nat), maskWith pad a i = maskWith pad b i → a = b := by
  intro a
  induction a with
  | nil =>
    intro b i h
    cases b with
    | nil => rfl
    | cons y t => simp [maskWith] at h
  | cons x xs ih =>
    intro b i h
    cases b with
    | nil => simp [maskWith] at h
    | cons y t =>
      simp only [maskWith, List.cons.injEq] at h
      obtain ⟨h1, h2⟩ := h
      have hx : x = y := by
        have h3 := congrArg (fun z => z ^^^ pad i) h1
        simpa [Nat.xor_cancel_right] using h3
      exact hx ▸ congrArg (List.cons x) (ih t (i + 1) h2)

theorem macTag_inj (key nonce ct ct2 : List Nat)
    (h : macTag key nonce ct = macTag key nonce ct2) : ct = ct2 :=
  maskWith_inj (macPad key nonce) ct ct2 0 h

theorem flip_ne (l : List Nat) (i b : Nat) (h : i < l.length) :
    l.set i ((l.getD i 0) ^^^ 2 ^ b) ≠ l := by
  intro he
  have h1 := congrArg (fun t => t[i]?) he
  simp only [List.getElem?_set_eq_of_lt _ h, List.getElem?_eq_getElem h] at h1
  have h2 : l.getD i 0 = l[i] := by
    simp [List.getD_eq_getElem?_getD, List.getElem?_eq_getElem h]
  rw [h2] at h1
  injection h1 with h3
  have h4 : (2:Nat) ^ b = 0 := by
    have h5 := congrArg (fun x => l[i] ^^^ x) h3
    simpa [← Nat.xor_assoc, Nat.xor_self, Nat.zero_xor] using h5
  exact (Nat.two_pow_pos b).ne' h4

/-! ## Association-list and pool lemmas -/

theorem findRec_mem {l : List (Nat × KeyRecord)} {k : Nat} {r : KeyRecord}
    (h : findRec l k = some r) : (k, r) ∈ l := by
  induction l with
  | nil => exact Option.noConfusion h
  | cons p t ih =>
    obtain ⟨i, q⟩ := p
    simp only [findRec] at h
    split_ifs at h with hik
    · subst hik
      injection h with h
      subst h
      exact List.mem_cons_self _ _
    · exact List.mem_cons_of_mem _ (ih h)

theorem findRec_updateRec_ne {l : List (Nat × KeyRecord)} {k j : Nat} (nr : KeyRecord)
    (hjk : j ≠ k) : findRec (updateRec l k nr) j = findRec l j := by
  induction l with
  | nil => rfl
  | cons p t ih =>
    obtain ⟨i, q⟩ := p
    simp only [updateRec]
    split_ifs with hik
    · subst hik
      simp only [findRec]
      rw [if_neg (fun h => hjk h.symm), if_neg (fun h => hjk h.symm)]
    · simp only [findRec]
      by_cases hij : i = j
      · rw [if_pos hij, if_pos hij]
      · rw [if_neg hij, if_neg hij]
        exact ih

theorem findRec_updateRec_self {l : List (Nat × KeyRecord)} {k : Nat} {r : KeyRecord}
    (nr : KeyRecord) (h : findRec l k = some r) :
    findRec (updateRec l k nr) k = some nr := by
  induction l with
  | nil => exact Option.noConfusion h
  | cons p t ih =>
    obtain ⟨i, q⟩ := p
    simp only [findRec] at h
    simp only [updateRec]
    by_cases hik : i = k
    · rw [if_pos hik]
      simp only [findRec]
      rw [if_pos hik]
    · rw [if_neg hik]
      simp only [findRec]
      rw [if_neg hik]
      rw [if_neg hik] at h
      exact ih h

theorem mem_updateRec {l : List (Nat × KeyRecord)} {k : Nat} {nr : KeyRecord} :
    ∀ p ∈ updateRec l k nr, ∃ q ∈ l, p.1 = q.1 := by
  induction l with
  | nil => intro p hp; exact absurd hp (List.not_mem_nil p)
  | cons hd t ih =>
    obtain ⟨i, q⟩ := hd
    intro p hp
    simp only [updateRec] at hp
    split_ifs at hp with hik
    · rcases List.mem_cons.mp hp with rfl | hmem
      · exact ⟨(i, q), List.mem_cons_self _ _, rfl⟩
      · exact ⟨p, List.mem_cons_of_mem _ hmem, rfl⟩
    · rcases List.mem_cons.mp hp with rfl | hmem
      · exact ⟨(i, q), List.mem_cons_self _ _, rfl⟩
      · obtain ⟨q2, hq2, hpq⟩ := ih p hmem
        exact ⟨q2, List.mem_cons_of_mem _ hq2, hpq⟩

theorem consumeKey_some {s : KpaState} {k : Nat} {r : KeyRecord}
    (h : findRec s.records k = some r) :
    consumeKey s k =
      if r.state = .reserved then
        .ok { s with records := updateRec s.records k
                       { r with state := .consumed, material := none } }
      else if r.state = .consumed then .error .alreadyConsumed
      else .error .notFound := by
  unfold consumeKey
  rw [h]

theorem retrieveKey_some {s : KpaState} {k : Nat} {r : KeyRecord}
    (h : findRec s.records k = some r) :
    retrieveKey s k =
      if r.state = .consumed then .error .gone
      else .ok (r.material.getD []) := by
  unfold retrieveKey
  rw [h]

theorem releaseKey_some {s : KpaState} {k : Nat} {r : KeyRecord}
    (h : findRec s.records k = some r) :
    releaseKey s k =
      if r.state = .reserved then
        { s with records := updateRec s.records k { r with state := .provisioned } }
      else s := by
  unfold releaseKey
  rw [h]

theorem releaseKey_none {s : KpaState} {k : Nat}
    (h : findRec s.records k = none) : releaseKey s k = s := by
  unfold releaseKey
  rw [h]

theorem requestKey_not_exhausted {s : KpaState} {peer size : Nat}
    (h : ¬ s.ceiling < allocatedBytes s peer + size) :
    requestKey s peer size =
      .ok ({ s with
              records := (s.nextId,
                ⟨.reserved, some (genBytes s.entropy size), peer, size⟩) :: s.records,
              nextId := s.nextId + 1, entropy := s.entropy + 1 },
           s.nextId, genBytes s.entropy size) := by
  unfold requestKey
  rw [if_neg h]

theorem consumed_preserved_step (s : KpaState) (k : Nat) (r : KeyRecord)
    (hWF : KpaWF s) (hfind : findRec s.records k = some r)
    (hstate : r.state = .consumed) (op : KpaOp) :
    findRec (stepOp s op).records k = some r ∧ KpaWF (stepOp s op) := by
  cases op with
  | req peer size =>
    simp only [stepOp]
    by_cases hex : s.ceiling < allocatedBytes s peer + size
    · rw [show requestKey s peer size = .error .exhausted from by
        unfold requestKey; rw [if_pos hex]]
      exact ⟨hfind, hWF⟩
    · rw [requestKey_not_exhausted hex]
      simp only [afterRequest]
      have hk : k < s.nextId := hWF _ (findRec_mem hfind)
      constructor
      · show findRec ((s.nextId, _) :: s.records) k = some r
        simp only [findRec]
        rw [if_neg (by omega)]
        exact hfind
      · intro p hp
        show p.1 < s.nextId + 1
        rcases List.mem_cons.mp hp with rfl | hmem
        · omega
        · have := hWF _ hmem
          omega
  | ret j => exact ⟨hfind, hWF⟩
  | con j =>
    simp only [stepOp]
    by_cases hjk : j = k
    · subst hjk
      rw [consumeKey_some hfind, if_neg (by simp [hstate]), if_pos hstate]
      exact ⟨hfind, hWF⟩
    · cases hf2 : findRec s.records j with
      | none =>
        rw [show consumeKey s j = .error .notFound from by unfold consumeKey; rw [hf2]]
        exact ⟨hfind, hWF⟩
      | some rj =>
        rw [consumeKey_some hf2]
        by_cases hres : rj.state = .reserved
        · rw [if_pos hres]
          simp only [afterConsume]
          constructor
          · show findRec (updateRec s.records j _) k = some r
            rw [findRec_updateRec_ne _ (Ne.symm hjk)]
            exact hfind
          · intro p hp
            obtain ⟨q2, hq2, hpq⟩ := mem_updateRec p hp
            exact hpq ▸ hWF _ hq2
        · rw [if_neg hres]
          by_cases hcon : rj.state = .consumed
          · rw [if_pos hcon]
            exact ⟨hfind, hWF⟩
          · rw [if_neg hcon]
            exact ⟨hfind, hWF⟩
  | rel j =>
    simp only [stepOp]
    by_cases hjk : j = k
    · subst hjk
      rw [releaseKey_some hfind, if_neg (by simp [hstate])]
      exact ⟨hfind, hWF⟩
    · cases hf2 : findRec s.records j with
      | none =>
        rw [releaseKey_none hf2]
        exact ⟨hfind, hWF⟩
      | some rj =>
        rw [releaseKey_some hf2]
        by_cases hres : rj.state = .reserved
        · rw [if_pos hres]
          constructor
          · show findRec (updateRec s.records j _) k = some r
            rw [findRec_updateRec_ne _ (Ne.symm hjk)]
            exact hfind
          · intro p hp
            obtain ⟨q2, hq2, hpq⟩ := mem_updateRec p hp
            exact hpq ▸ hWF _ hq2
        · rw [if_neg hres]
          exact ⟨hfind, hWF⟩

theorem consumed_preserved_run (k : Nat) (r : KeyRecord) (hstate : r.state = .consumed) :
    ∀ (ops : List KpaOp) (s : KpaState), KpaWF s → findRec s.records k = some r →
      findRec (runOps s ops).records k = some r ∧ KpaWF (runOps s ops) := by
  intro ops
  induction ops with
  | nil => intro s h1 h2; exact ⟨h2, h1⟩
  | cons op t ih =>
    intro s h1 h2
    obtain ⟨h3, h4⟩ := consumed_preserved_step s k r h1 h2 hstate op
    exact ih (stepOp s op) h4 h3

/-! ## Theorems -/

/-- C1: once a key has been consumed, its record — state `Consumed`,
material zeroized to `none` — survives every later sequence of pool
operations unchanged: no operation ever moves it out of `Consumed`, a
later `consume` always fails with `AlreadyConsumed`, a later `retrieve`
always fails with `Gone`, and since the stored material is `none` from the
moment of consumption, no operation can return the original raw key
material again. -/
theorem one_time_use (s0 s1 : KpaState) (k : Nat)
    (hWF : KpaWF s0) (hcons : consumeKey s0 k = .ok s1) (ops : List KpaOp) :
    ∃ r : KeyRecord,
      findRec s1.records k = some r ∧ r.state = .consumed ∧ r.material = none ∧
      findRec (runOps s1 ops).records k = some r ∧
      consumeKey (runOps s1 ops) k = .error .alreadyConsumed ∧
      retrieveKey (runOps s1 ops) k = .error .gone := by
  cases hf : findRec s0.records k with
  | none =>
    rw [show consumeKey s0 k = .error .notFound from by unfold consumeKey; rw [hf]]
      at hcons
    exact Except.noConfusion hcons
  | some r0 =>
    rw [consumeKey_some hf] at hcons
    by_cases hres : r0.state = .reserved
    · rw [if_pos hres] at hcons
      injection hcons with hcons
      subst hcons
      have hfind1 : findRec (updateRec s0.records k
          { r0 with state := .consumed, material := none }) k =
          some { r0 with state := .consumed, material := none } :=
        findRec_updateRec_self _ hf
      have hWF1 : KpaWF
          { s0 with records := updateRec s0.records k { r0 with state := KeyState.consumed, material := none } } := by
        intro p hp
        obtain ⟨q2, hq2, hpq⟩ := mem_updateRec p hp
        exact hpq ▸ hWF _ hq2
      obtain ⟨hfinal, _⟩ :=
        consumed_preserved_run k { r0 with state := .consumed, material := none }
          rfl ops _ hWF1 hfind1
      refine ⟨_, hfind1, rfl, rfl, hfinal, ?_, ?_⟩
      · rw [consumeKey_some hfinal]
        simp
      · rw [retrieveKey_some hfinal]
        simp
    · rw [if_neg hres] at hcons
      split_ifs at hcons

/-- Witness for C1: a concrete consumed key survives a request, a release,
a retrieve and a consume attempt; the later consume answers
`AlreadyConsumed` and the later retrieve answers `Gone`. -/
theorem one_time_use_witness :
    consumeKey (runOps ⟨[(0, ⟨KeyState.consumed, none, 1, 2⟩)], 1, 0, 100⟩
        [.req 1 2, .rel 0, .ret 0, .con 0]) 0 = .error .alreadyConsumed ∧
    retrieveKey (runOps ⟨[(0, ⟨KeyState.consumed, none, 1, 2⟩)], 1, 0, 100⟩
        [.req 1 2, .rel 0, .ret 0, .con 0]) 0 = .error .gone := by
  have h := one_time_use ⟨[(0, ⟨.reserved, some [9, 9], 1, 2⟩)], 1, 0, 100⟩
    ⟨[(0, ⟨KeyState.consumed, none, 1, 2⟩)], 1, 0, 100⟩ 0 (by decide) (by rfl)
    [.req 1 2, .rel 0, .ret 0, .con 0]
  obtain ⟨r, _, _, _, _, h5, h6⟩ := h
  exact ⟨h5, h6⟩

/-- C8: a key request whose size would push the peer's allocation past the
configured per-peer ceiling fails with `Exhausted` and leaves the pool
state — including every existing `KeyRecord` — completely unchanged. -/
theorem pool_exhaustion_atomic (s : KpaState) (peer size : Nat)
    (h : s.ceiling < allocatedBytes s peer + size) :
    requestKey s peer size = .error .exhausted ∧
    stepOp s (.req peer size) = s := by
  have hreq : requestKey s peer size = .error .exhausted := by
    unfold requestKey; rw [if_pos h]
  exact ⟨hreq, by simp [stepOp, hreq, afterRequest]⟩

/-- Witness for C8: a 10-byte request against a 3-byte ceiling with 2 bytes
already allocated fails with `Exhausted` and changes nothing. -/
theorem pool_exhaustion_atomic_witness :
    requestKey ⟨[(0, ⟨.reserved, some [1, 2], 7, 2⟩)], 1, 5, 3⟩ 7 10 =
      .error .exhausted ∧
    stepOp ⟨[(0, ⟨.reserved, some [1, 2], 7, 2⟩)], 1, 5, 3⟩ (.req 7 10) =
      ⟨[(0, ⟨.reserved, some [1, 2], 7, 2⟩)], 1, 5, 3⟩ :=
  pool_exhaustion_atomic ⟨[(0, ⟨.reserved, some [1, 2], 7, 2⟩)], 1, 5, 3⟩ 7 10
    (by decide)

/-- C3: level-1 encryption fails with `MalformedEnvelope` exactly when the
key length differs from the plaintext length; on equal lengths it succeeds
with a ciphertext of exactly the plaintext length (the plain XOR of the two
inputs — nothing truncated or padded), and the length guard is the first
check of `otpEncrypt`, before any XOR. -/
theorem otp_length_invariant (key pt : List Nat) :
    (key.length ≠ pt.length →
       encryptEE 1 (.otp key) pt = .error .malformedEnvelope) ∧
    (key.length = pt.length →
       encryptEE 1 (.otp key) pt =
         .ok { security_level := 1, ciphertext := xorBytes pt key, nonce := [],
               tag := macTag (otpDerive key) [] (xorBytes pt key), kem_ct := [] } ∧
       (xorBytes pt key).length = pt.length) := by
  constructor
  · intro h
    simp [encryptEE, otpEncrypt, h]
  · intro h
    refine ⟨by simp [encryptEE, otpEncrypt, h], ?_⟩
    rw [length_xorBytes, h, Nat.min_self]

/-- Witness for C3: a 2-byte key rejects a 1-byte plaintext with
`MalformedEnvelope` and accepts a 2-byte plaintext with a 2-byte
ciphertext. -/
theorem otp_length_invariant_witness :
    encryptEE 1 (.otp [1, 2]) [5] = .error .malformedEnvelope ∧
    encryptEE 1 (.otp [1, 2]) [5, 6] =
      .ok { security_level := 1, ciphertext := xorBytes [5, 6] [1, 2], nonce := [],
            tag := macTag (otpDerive [1, 2]) [] (xorBytes [5, 6] [1, 2]),
            kem_ct := [] } :=
  ⟨(otp_length_invariant [1, 2] [5]).1 (by decide),
   ((otp_length_invariant [1, 2] [5, 6]).2 (by decide)).1⟩

/-- C2: for each security level 1–3 and every plaintext, decrypting the
result of encryption under a valid key context (equal-length OTP key for
level 1, 32-byte seed for levels 2–3, matching KEM key pair for level 3)
returns exactly the original plaintext. -/
theorem round_trip (pt : List Nat) :
    (∀ key : List Nat, key.length = pt.length →
       (encryptEE 1 (.otp key) pt).bind (decryptEE 1 (.otp key)) = .ok pt) ∧
    (∀ seed nonce : List Nat, seed.length = 32 →
       (encryptEE 2 (.aes seed nonce) pt).bind (decryptEE 2 (.aes seed)) = .ok pt) ∧
    (∀ (sk r : Nat) (seed nonce : List Nat), seed.length = 32 →
       (encryptEE 3 (.pqc (kemPub sk) r seed nonce) pt).bind
         (decryptEE 3 (.pqc sk seed)) = .ok pt) := by
  refine ⟨?_, ?_, ?_⟩
  · intro key h
    have hct : (xorBytes pt key).length = pt.length := by
      rw [length_xorBytes, h, Nat.min_self]
    simp only [encryptEE, otpEncrypt, if_pos h, Except.bind, decryptEE, otpDecrypt]
    rw [if_pos (h.trans hct.symm), if_pos trivial, xorBytes_cancel pt key h]
  · intro seed nonce h
    have hct : (xorBytes pt (keystream seed nonce pt.length)).length = pt.length := by
      rw [length_xorBytes, length_keystream, Nat.min_self]
    simp only [encryptEE, aesEncrypt, if_pos h, Except.bind, decryptEE, aesDecrypt]
    rw [if_pos trivial, hct,
        xorBytes_cancel pt (keystream seed nonce pt.length) (length_keystream _ _ _)]
  · intro sk r seed nonce h
    have hct : (xorBytes pt
        (keystream (hkdfCombine (kemEncaps (kemPub sk) r).2 seed) nonce
          pt.length)).length = pt.length := by
      rw [length_xorBytes, length_keystream, Nat.min_self]
    simp only [encryptEE, pqcEncrypt, if_pos h, Except.bind, decryptEE, pqcDecrypt]
    rw [show kemDecaps sk (kemEncaps (kemPub sk) r).1 = (kemEncaps (kemPub sk) r).2
          from rfl]
    rw [if_pos rfl, hct,
        xorBytes_cancel pt _ (length_keystream _ _ _)]

/-- Witness for C2: concrete round trips at all three levels on the
plaintext `[1, 2, 3]`. -/
theorem round_trip_witness :
    (encryptEE 1 (.otp [4, 5, 6]) [1, 2, 3]).bind
      (decryptEE 1 (.otp [4, 5, 6])) = .ok [1, 2, 3] ∧
    (encryptEE 2 (.aes (List.replicate 32 7) [9]) [1, 2, 3]).bind
      (decryptEE 2 (.aes (List.replicate 32 7))) = .ok [1, 2, 3] ∧
    (encryptEE 3 (.pqc (kemPub 3) 9 (List.replicate 32 7) [9]) [1, 2, 3]).bind
      (decryptEE 3 (.pqc 3 (List.replicate 32 7))) = .ok [1, 2, 3] :=
  ⟨(round_trip [1, 2, 3]).1 [4, 5, 6] (by decide),
   (round_trip [1, 2, 3]).2.1 (List.replicate 32 7) [9] (by decide),
   (round_trip [1, 2, 3]).2.2 3 9 (List.replicate 32 7) [9] (by decide)⟩

/-- C4: for every envelope produced by encryption at levels 1–3, flipping
any single bit of any ciphertext byte or any tag byte makes decryption fail
with `IntegrityFailure` — the tag is checked before any plaintext is
released, and an error result carries no plaintext at all. -/
theorem tamper_fails_closed :
    (∀ (key pt : List Nat) (env : Envelope),
       encryptEE 1 (.otp key) pt = .ok env →
       ∀ i b, i < env.ciphertext.length →
         decryptEE 1 (.otp key) (tamperCt env i b) = .error .integrityFailure) ∧
    (∀ (key pt : List Nat) (env : Envelope),
       encryptEE 1 (.otp key) pt = .ok env →
       ∀ i b, i < env.tag.length →
         decryptEE 1 (.otp key) (tamperTag env i b) = .error .integrityFailure) ∧
    (∀ (seed nonce pt : List Nat) (env : Envelope),
       encryptEE 2 (.aes seed nonce) pt = .ok env →
       ∀ i b, i < env.ciphertext.length →
         decryptEE 2 (.aes seed) (tamperCt env i b) = .error .integrityFailure) ∧
    (∀ (seed nonce pt : List Nat) (env : Envelope),
       encryptEE 2 (.aes seed nonce) pt = .ok env →
       ∀ i b, i < env.tag.length →
         decryptEE 2 (.aes seed) (tamperTag env i b) = .error .integrityFailure) ∧
    (∀ (sk r : Nat) (seed nonce pt : List Nat) (env : Envelope),
       encryptEE 3 (.pqc (kemPub sk) r seed nonce) pt = .ok env →
       ∀ i b, i < env.ciphertext.length →
         decryptEE 3 (.pqc sk seed) (tamperCt env i b) = .error .integrityFailure) ∧
    (∀ (sk r : Nat) (seed nonce pt : List Nat) (env : Envelope),
       encryptEE 3 (.pqc (kemPub sk) r seed nonce) pt = .ok env →
       ∀ i b, i < env.tag.length →
         decryptEE 3 (.pqc sk seed) (tamperTag env i b) = .error .integrityFailure) := by
  refine ⟨?_, ?_, ?_, ?_, ?_, ?_⟩
  · intro key pt env henc i b hi
    simp only [encryptEE, otpEncrypt] at henc
    by_cases hlen : key.length = pt.length
    · rw [if_pos hlen] at henc
      injection henc with henc
      subst henc
      simp only [tamperCt] at hi ⊢
      simp only [decryptEE, otpDecrypt, List.length_set]
      rw [if_pos (by rw [length_xorBytes, ← hlen, Nat.min_self])]
      rw [if_neg ?_]
      intro hcond
      exact flip_ne _ i b hi (macTag_inj _ _ _ _ hcond).symm
    · rw [if_neg hlen] at henc
      exact Except.noConfusion henc
  · intro key pt env henc i b hi
    simp only [encryptEE, otpEncrypt] at henc
    by_cases hlen : key.length = pt.length
    · rw [if_pos hlen] at henc
      injection henc with henc
      subst henc
      simp only [tamperTag] at hi ⊢
      simp only [decryptEE, otpDecrypt]
      rw [if_pos (by rw [length_xorBytes, ← hlen, Nat.min_self])]
      rw [if_neg ?_]
      intro hcond
      exact flip_ne _ i b hi hcond
    · rw [if_neg hlen] at henc
      exact Except.noConfusion henc
  · intro seed nonce pt env henc i b hi
    simp only [encryptEE, aesEncrypt] at henc
    by_cases h32 : seed.length = 32
    · rw [if_pos h32] at henc
      injection henc with henc
      subst henc
      simp only [tamperCt] at hi ⊢
      simp only [decryptEE, aesDecrypt]
      rw [if_pos h32]
      rw [if_neg ?_]
      intro hcond
      exact flip_ne _ i b hi (macTag_inj _ _ _ _ hcond).symm
    · rw [if_neg h32] at henc
      exact Except.noConfusion henc
  · intro seed nonce pt env henc i b hi
    simp only [encryptEE, aesEncrypt] at henc
    by_cases h32 : seed.length = 32
    · rw [if_pos h32] at henc
      injection henc with henc
      subst henc
      simp only [tamperTag] at hi ⊢
      simp only [decryptEE, aesDecrypt]
      rw [if_pos h32]
      rw [if_neg ?_]
      intro hcond
      exact flip_ne _ i b hi hcond
    · rw [if_neg h32] at henc
      exact Except.noConfusion henc
  · intro sk r seed nonce pt env henc i b hi
    simp only [encryptEE, pqcEncrypt] at henc
    by_cases h32 : seed.length = 32
    · rw [if_pos h32] at henc
      injection henc with henc
      subst henc
      simp only [tamperCt] at hi ⊢
      simp only [decryptEE, pqcDecrypt]
      rw [if_pos h32]
      rw [show kemDecaps sk (kemEncaps (kemPub sk) r).1 = (kemEncaps (kemPub sk) r).2
            from rfl]
      rw [if_neg ?_]
      intro hcond
      exact flip_ne _ i b hi (macTag_inj _ _ _ _ hcond).symm
    · rw [if_neg h32] at henc
      exact Except.noConfusion henc
  · intro sk r seed nonce pt env henc i b hi
    simp only [encryptEE, pqcEncrypt] at henc
    by_cases h32 : seed.length = 32
    · rw [if_pos h32] at henc
      injection henc with henc
      subst henc
      simp only [tamperTag] at hi ⊢
      simp only [decryptEE, pqcDecrypt]
      rw [if_pos h32]
      rw [show kemDecaps sk (kemEncaps (kemPub sk) r).1 = (kemEncaps (kemPub sk) r).2
            from rfl]
      rw [if_neg ?_]
      intro hcond
      exact flip_ne _ i b hi hcond
    · rw [if_neg h32] at henc
      exact Except.noConfusion henc

/-- Witness for C4: a concrete level-1 envelope with one ciphertext bit
flipped is rejected with `IntegrityFailure`. -/
theorem tamper_fails_closed_witness :
    decryptEE 1 (.otp [0])
      (tamperCt { security_level := 1, ciphertext := xorBytes [0] [0], nonce := [],
                  tag := macTag (otpDerive [0]) [] (xorBytes [0] [0]), kem_ct := [] }
        0 0) = .error .integrityFailure :=
  tamper_fails_closed.1 [0] [0] _ (by rfl) 0 0 (by decide)

/-- C6: a requested level 4 is approved unconditionally — the frontend
availability check accepts level 4 for every status (even with the key
manager disconnected or no status loaded), and the policy engine approves
a level-4 request for every capability list, payload size and key
inventory, with no fallback reason. -/
theorem level4_always_approved :
    (∀ st : Option SecurityStatus, isLevelAvailable st 4 = true) ∧
    (∀ supported payloadSize availableBytes aesKeys,
       evaluate ⟨4, supported, payloadSize, availableBytes, aesKeys⟩ =
         ⟨4, none⟩) := by
  constructor
  · intro st; simp [isLevelAvailable]
  · intro supported payloadSize availableBytes aesKeys; simp [evaluate]

/-- C5: a level-1 request from a capable recipient whose reported
`available_bytes` is below the payload size is approved at level 2 when AES
key material exists and at level 4 otherwise, and in both cases a non-empty
fallback reason is recorded. -/
theorem level1_fallback (inp : PeInput) (h1 : inp.requested = 1)
    (hsup : 1 ∈ inp.supported) (hlow : inp.availableBytes < inp.payloadSize) :
    (0 < inp.aesKeys →
       evaluate inp = ⟨2, some "insufficient OTP key material"⟩) ∧
    (inp.aesKeys = 0 →
       evaluate inp = ⟨4, some "insufficient OTP key material and no AES keys"⟩) ∧
    ∃ msg, (evaluate inp).reason = some msg ∧ msg ≠ "" := by
  have hne : ¬ inp.requested = 4 := by rw [h1]; decide
  have hmem : ¬ inp.requested ∉ inp.supported := by rw [h1]; simpa using hsup
  unfold evaluate
  rw [if_neg hne, if_neg hmem, if_pos ⟨h1, hlow⟩]
  refine ⟨fun hpos => by rw [if_pos hpos], fun hz => by rw [if_neg (by omega)], ?_⟩
  rcases Nat.eq_zero_or_pos inp.aesKeys with hz | hpos
  · rw [if_neg (by omega)]; exact ⟨_, rfl, by decide⟩
  · rw [if_pos hpos]; exact ⟨_, rfl, by decide⟩

/-- Witness for C5: 0 available OTP bytes, 5 AES keys, a level-1 request
for a 100-byte message is approved at level 2 with a (non-empty) recorded
reason. -/
theorem level1_fallback_witness :
    evaluate ⟨1, [1, 2, 3, 4], 100, 0, 5⟩ =
      ⟨2, some "insufficient OTP key material"⟩ :=
  (level1_fallback ⟨1, [1, 2, 3, 4], 100, 0, 5⟩ rfl (by decide) (by decide)).1
    (by decide)

/-- C9: on a non-OK backend response, the API client throws (the outcome is
an error, never a parsed body), and when the status is exactly 401 it also
clears the module-level auth token — so no Authorization header can be
built from the resulting token state — and dispatches the
`qumail:unauthorized` window event. -/
theorem client_error_behaviour (token : Option String) (r : HttpResponse)
    (hok : r.ok = false) :
    (handleResponse token r).2.2 =
      .error (r.errorDetail.getD ("Request failed: " ++ toString r.status)) ∧
    (r.status = 401 →
      (handleResponse token r).1 = none ∧
      authHeaderFor (handleResponse token r).1 = none ∧
      (handleResponse token r).2.1 = ["qumail:unauthorized"]) := by
  unfold handleResponse
  rw [if_neg (by simp [hok])]
  exact ⟨rfl, fun h401 => by simp [h401, authHeaderFor]⟩

/-- Witness for C9: a 401 response clears the token, emits the
unauthorized event and throws the parsed detail. -/
theorem client_error_behaviour_witness :
    (handleResponse (some "tok") ⟨false, 401, some "Unauthorized", ""⟩).1 = none ∧
    (handleResponse (some "tok") ⟨false, 401, some "Unauthorized", ""⟩).2.1 =
      ["qumail:unauthorized"] ∧
    (handleResponse (some "tok") ⟨false, 401, some "Unauthorized", ""⟩).2.2 =
      .error "Unauthorized" := by
  have h := client_error_behaviour (some "tok") ⟨false, 401, some "Unauthorized", ""⟩ rfl
  exact ⟨(h.2 rfl).1, (h.2 rfl).2.2, h.1⟩

/-- C10: with a blank (empty or whitespace-only) recipient, subject or body,
`handleSend` sets a non-empty validation error and returns without calling
`sendEmail` — the outcome is `blocked` and does not depend on what the send
request would have returned. -/
theorem compose_send_guard (toField subject body : String) (lvl : Nat)
    (sr sr2 : Except String SendEmailResponse)
    (hblank : isBlank toField = true ∨ isBlank subject = true ∨ isBlank body = true) :
    (∃ msg, handleSend toField subject body lvl sr = .blocked msg ∧ msg ≠ "") ∧
    handleSend toField subject body lvl sr =
      handleSend toField subject body lvl sr2 := by
  have hv : ∃ msg, composeValidationError toField subject body = some msg ∧ msg ≠ "" := by
    unfold composeValidationError
    by_cases h1 : isBlank toField = true
    · exact ⟨_, by rw [if_pos h1], by decide⟩
    · by_cases h2 : isBlank subject = true
      · exact ⟨_, by rw [if_neg h1, if_pos h2], by decide⟩
      · by_cases h3 : isBlank body = true
        · exact ⟨_, by rw [if_neg h1, if_neg h2, if_pos h3], by decide⟩
        · rcases hblank with h | h | h <;> simp_all
  obtain ⟨msg, hm, hne⟩ := hv
  refine ⟨⟨msg, ?_, hne⟩, ?_⟩
  · unfold handleSend; rw [hm]
  · unfold handleSend; rw [hm]

/-- Witness for C10: a whitespace-only recipient blocks the send with the
recipient validation message, whatever the network would have answered. -/
theorem compose_send_guard_witness :
    handleSend "  " "subject" "body" 2 (.error "net") =
      .blocked "Please enter at least one recipient" ∧
    handleSend "  " "subject" "body" 2 (.error "net") =
      handleSend "  " "subject" "body" 2 (.ok ⟨true, none, none, 2, none⟩) := by
  have h := compose_send_guard "  " "subject" "body" 2 (.error "net")
    (.ok ⟨true, none, none, 2, none⟩) (Or.inl (by decide))
  exact ⟨by decide, h.2⟩

/-- C7, counterexample: a send requested at level 1 whose response reports
`security_level_used = 2` and `success = true` makes `handleSend` navigate
to the sent folder with no message shown — the degradation is not surfaced
to the user, although the approved level differs from the requested one. -/
theorem silent_fallback_counterexample :
    handleSend "alice@example.com" "subj" "hello" 1
        (.ok { success := true, message_id := some "m1", key_id := some "k1",
               security_level_used := 2, error := none }) = .navigateSent ∧
    outcomeSignalsUser ComposeOutcome.navigateSent = false ∧
    (2 : Nat) ≠ 1 :=
  ⟨by decide, rfl, by decide⟩

/-- C7, amended: the policy engine's result carries a reason code whenever
the approved level differs from the requested one, and the send response
type carries the level actually used; but the compose caller does not
surface a degradation — on any successful response it navigates to the sent
folder regardless of `security_level_used`. -/
theorem fallback_reason_and_silent_success :
    (∀ inp : PeInput, (evaluate inp).approved ≠ inp.requested →
       (evaluate inp).reason.isSome = true) ∧
    (∀ (t s b : String) (lvl : Nat) (resp : SendEmailResponse),
       composeValidationError t s b = none → resp.success = true →
       handleSend t s b lvl (.ok resp) = .navigateSent) := by
  constructor
  · intro inp h
    unfold evaluate at h ⊢
    split_ifs at h ⊢ <;> simp_all
  · intro t s b lvl resp hv hs
    unfold handleSend
    rw [hv]
    simp [hs]

/-- Witness for the amended C7: a concrete fallback has a reason recorded,
and a concrete successful send at a different level silently navigates. -/
theorem fallback_reason_and_silent_success_witness :
    (evaluate ⟨1, [1], 100, 0, 5⟩).reason.isSome = true ∧
    handleSend "a" "b" "c" 1 (.ok ⟨true, none, none, 2, none⟩) = .navigateSent := by
  have h := fallback_reason_and_silent_success
  exact ⟨h.1 ⟨1, [1], 100, 0, 5⟩ (by decide),
         h.2 "a" "b" "c" 1 ⟨true, none, none, 2, none⟩ (by decide) rfl⟩

end QuMail
